import Mathlib

/-!
Verification of the path representation and boolean-operation orchestration
layer of the kotlin-linesweeper binding (src/src/lib.rs), as a shallow
embedding in Lean 4.

Modelling conventions:
* Rust `f64` values are never computed on in this layer — they are stored
  and read back verbatim.  We model an `f64` as its 64-bit pattern, so
  "bitwise-identical" is plain equality; NaN / infinity are characterised
  by the IEEE-754 binary64 exponent/mantissa fields.
* The kurbo path-math library and the linesweeper engine are external
  collaborators (only their consumed interface is used by the code); their
  types are modelled from the spec's description of that interface, and the
  engine's `binary_op` entry point is kept abstract as a parameter.
* `BezierPath` instances are heap objects (each owns one `Mutex<BezPath>`);
  object identity and allocation are modelled by a store (list) of
  `BezierPath` values indexed by `PathId`.
* The `Mutex` only serialises intra-call access; every exported operation
  is, observationally, a sequential function on the guarded sequence, which
  is what the embedding captures.
-/

/-- A Rust `f64` value, modelled by its 64-bit pattern (`bits < 2^64` is not
needed by any claim, so it is not imposed).  The binding layer moves these
values around without arithmetic, so equality of models is bitwise equality
of the Rust values. -/
structure F64 where
  bits : Nat
deriving DecidableEq, Repr

/-- IEEE-754 binary64: NaN iff the 11 exponent bits are all ones and the
52 mantissa bits are not all zero. -/
def F64.isNaN (v : F64) : Bool :=
  decide ((v.bits / 2 ^ 52) % 2 ^ 11 = 2047) && !decide (v.bits % 2 ^ 52 = 0)

/-- IEEE-754 binary64: infinite iff the 11 exponent bits are all ones and
the 52 mantissa bits are all zero. -/
def F64.isInfinite (v : F64) : Bool :=
  decide ((v.bits / 2 ^ 52) % 2 ^ 11 = 2047) && decide (v.bits % 2 ^ 52 = 0)

/-- Modelled from the spec: the path-math library's `Point` — plain point
data with an `x` and a `y` coordinate (`Point::new(x, y)` just stores its
arguments). -/
@[ext]
structure Point where
  x : F64
  y : F64
deriving DecidableEq, Repr

/-- Modelled from the spec: the path-math library's native path element
vocabulary (move/line/quad/cubic/close with point arguments). -/
inductive PathEl where
  | MoveTo (p : Point)
  | LineTo (p : Point)
  | QuadTo (p1 p2 : Point)
  | CurveTo (p1 p2 p3 : Point)
  | ClosePath
deriving DecidableEq, Repr

/-- Modelled from the spec: the path-math library's native path
representation, an ordered sequence of native elements. -/
abbrev BezPath : Type := List PathEl

/-- Modelled from the spec: `BezPath::new()` — the empty native path. -/
def BezPath.new : BezPath := []

/-- Modelled from the spec: `BezPath::move_to` appends a `MoveTo` element
(the container never validates geometric well-formedness). -/
def BezPath.move_to (path : BezPath) (p : Point) : BezPath :=
  path ++ [PathEl.MoveTo p]

/-- Modelled from the spec: `BezPath::line_to` appends a `LineTo` element. -/
def BezPath.line_to (path : BezPath) (p : Point) : BezPath :=
  path ++ [PathEl.LineTo p]

/-- Modelled from the spec: `BezPath::quad_to` appends a `QuadTo` element. -/
def BezPath.quad_to (path : BezPath) (p1 p2 : Point) : BezPath :=
  path ++ [PathEl.QuadTo p1 p2]

/-- Modelled from the spec: `BezPath::curve_to` appends a `CurveTo`
element. -/
def BezPath.curve_to (path : BezPath) (p1 p2 p3 : Point) : BezPath :=
  path ++ [PathEl.CurveTo p1 p2 p3]

/-- Modelled from the spec: `BezPath::close_path` appends a `ClosePath`
element. -/
def BezPath.close_path (path : BezPath) : BezPath :=
  path ++ [PathEl.ClosePath]

/-- Modelled from the spec: `BezPath::elements()` — the element sequence in
insertion order. -/
def BezPath.elements (path : BezPath) : List PathEl := path

/-- The binding's `PathSegment` enum (src/src/lib.rs): a closed tagged union
with five variants carrying plain coordinate fields. -/
inductive PathSegment where
  | MoveTo (x y : F64)
  | LineTo (x y : F64)
  | QuadTo (cp_x cp_y x y : F64)
  | CurveTo (cp1_x cp1_y cp2_x cp2_y x y : F64)
  | ClosePath
deriving DecidableEq, Repr

/-- The binding's `BooleanOperation` enum (src/src/lib.rs). -/
inductive BooleanOperation where
  | Union
  | Intersection
  | Difference
  | Xor
deriving DecidableEq, Repr

/-- The binding's `FillRule` enum (src/src/lib.rs). -/
inductive FillRule where
  | EvenOdd
  | NonZero
deriving DecidableEq, Repr

/-- Modelled from the spec: the engine's `BinaryOp` enumeration (union,
intersection, difference, xor). -/
inductive BinaryOp where
  | Union
  | Intersection
  | Difference
  | Xor
deriving DecidableEq, Repr

/-- Modelled from the spec: the engine's fill-rule enumeration. -/
inductive LsFillRule where
  | EvenOdd
  | NonZero
deriving DecidableEq, Repr

/-- Modelled from the spec: the engine's error type — a variant set
including "infinite coordinate", "NaN coordinate", and an open-ended
internal-failure case; `Other s` stands for any further variant, `s` being
its Rust debug representation. -/
inductive LsError where
  | Infinity
  | NaN
  | Other (debugRepr : String)
deriving DecidableEq, Repr

/-- Modelled from the spec: the Rust debug formatting of an engine error,
as produced by the format machinery in the catch-all arm. -/
def LsError.debugFmt : LsError → String
  | .Infinity => "Infinity"
  | .NaN => "NaN"
  | .Other s => s

/-- The binding's `LineSweeperError` enum (src/src/lib.rs). -/
inductive LineSweeperError where
  | InfiniteInput
  | NaNInput
  | InternalError (message : String)
deriving DecidableEq, Repr

/-- `impl From<LsError> for LineSweeperError` (src/src/lib.rs lines 43-51):
`Infinity` maps to `InfiniteInput`, `NaN` to `NaNInput`, and the catch-all
arm wraps the debug formatting of the error in `InternalError`. -/
def LineSweeperError.from : LsError → LineSweeperError
  | .Infinity => .InfiniteInput
  | .NaN => .NaNInput
  | err => .InternalError err.debugFmt

/-- `impl From<BooleanOperation> for BinaryOp` (src/src/lib.rs lines 53-62):
explicit per-variant match, no default arm. -/
def BinaryOp.from : BooleanOperation → BinaryOp
  | .Union => .Union
  | .Intersection => .Intersection
  | .Difference => .Difference
  | .Xor => .Xor

/-- `impl From<FillRule> for LsFillRule` (src/src/lib.rs lines 64-71):
explicit per-variant match, no default arm. -/
def LsFillRule.from : FillRule → LsFillRule
  | .EvenOdd => .EvenOdd
  | .NonZero => .NonZero

/-- The binding's `BezierPath` object (src/src/lib.rs): its only state is
the lock-guarded `BezPath`; the value of that guarded sequence is the
observable state of one instance. -/
structure BezierPath where
  path : BezPath
deriving DecidableEq

/-- `BezierPath::new()`: a new instance holding an empty path. -/
def BezierPath.new : BezierPath :=
  { path := BezPath.new }

/-- `BezierPath::from_kurbo_path`: a new instance holding the given native
path. -/
def BezierPath.from_kurbo_path (kurbo_path : BezPath) : BezierPath :=
  { path := kurbo_path }

/-- `BezierPath::move_to(x, y)`: appends `MoveTo(Point::new(x, y))` to the
guarded sequence. -/
def BezierPath.move_to (self : BezierPath) (x y : F64) : BezierPath :=
  { path := self.path.move_to (Point.mk x y) }

/-- `BezierPath::line_to(x, y)`. -/
def BezierPath.line_to (self : BezierPath) (x y : F64) : BezierPath :=
  { path := self.path.line_to (Point.mk x y) }

/-- `BezierPath::curve_to(cp1_x, cp1_y, cp2_x, cp2_y, x, y)`. -/
def BezierPath.curve_to (self : BezierPath)
    (cp1_x cp1_y cp2_x cp2_y x y : F64) : BezierPath :=
  { path := self.path.curve_to (Point.mk cp1_x cp1_y) (Point.mk cp2_x cp2_y)
      (Point.mk x y) }

/-- `BezierPath::quad_to(cp_x, cp_y, x, y)`. -/
def BezierPath.quad_to (self : BezierPath) (cp_x cp_y x y : F64) : BezierPath :=
  { path := self.path.quad_to (Point.mk cp_x cp_y) (Point.mk x y) }

/-- `BezierPath::close_path()`. -/
def BezierPath.close_path (self : BezierPath) : BezierPath :=
  { path := self.path.close_path }

/-- `BezierPath::get_segments()` (src/src/lib.rs lines 129-166): starts from
an empty vector and, for each element of the guarded path in order, pushes
the `PathSegment` built by the corresponding match arm. -/
def BezierPath.get_segments (self : BezierPath) : List PathSegment :=
  self.path.elements.foldl
    (fun segments el =>
      match el with
      | PathEl.MoveTo p => segments ++ [PathSegment.MoveTo p.x p.y]
      | PathEl.LineTo p => segments ++ [PathSegment.LineTo p.x p.y]
      | PathEl.QuadTo p1 p2 =>
          segments ++ [PathSegment.QuadTo p1.x p1.y p2.x p2.y]
      | PathEl.CurveTo p1 p2 p3 =>
          segments ++ [PathSegment.CurveTo p1.x p1.y p2.x p2.y p3.x p3.y]
      | PathEl.ClosePath => segments ++ [PathSegment.ClosePath])
    []

/-- `BezierPath::to_kurbo_path()`: a clone of the guarded sequence (value
copy; the instance itself is unchanged). -/
def BezierPath.to_kurbo_path (self : BezierPath) : BezPath :=
  self.path

/-- Modelled from the spec: one connected output boundary of a boolean
operation; the contour exposes the engine-native path it carries. -/
structure Contour where
  path : BezPath
deriving DecidableEq

/-- Modelled from the spec: the engine's output contour set, an ordered
iterable of contours. -/
abbrev Contours : Type := List Contour

/-- Modelled from the spec: `Contours::contours()` — iterate the contours
in the engine-reported order. -/
def Contours.contours (self : Contours) : List Contour := self

/-- Modelled from the spec: the type of the engine's `binary_op` entry
point, `(pathA, pathB, fillRule, op) -> Result<Contours, Error>`.  The
engine is an external collaborator; the claims quantify over an arbitrary
fixed function of this type. -/
abbrev Engine : Type :=
  BezPath → BezPath → LsFillRule → BinaryOp → Except LsError Contours

/-- `convert_contours_to_paths` (src/src/lib.rs lines 176-183): for each
contour, in order, wrap a clone of the native path it carries in a
brand-new `BezierPath` instance. -/
def convert_contours_to_paths (contours : Contours) : List BezierPath :=
  contours.contours.map
    (fun contour => BezierPath.from_kurbo_path contour.path)

/-- A reference to one `BezierPath` heap object. -/
abbrev PathId : Type := Nat

/-- The heap of live `BezierPath` instances: allocation appends, and a
`PathId` is an index.  Rust guarantees every handle refers to a live
object, so claims carry `id < store.length` hypotheses where needed. -/
abbrev Store : Type := List BezierPath

/-- Read the instance a handle refers to (an arbitrary default keeps the
lookup total; in-range hypotheses rule it out where it matters). -/
def Store.get (store : Store) (id : PathId) : BezierPath :=
  store.getD id BezierPath.new

/-- Allocate fresh instances, returning the grown heap and the new ids in
order. -/
def Store.alloc (store : Store) (objs : List BezierPath) :
    Store × List PathId :=
  (store ++ objs, (List.range objs.length).map (fun i => store.length + i))

/-- In-place update of one instance: the builder operations mutate a single
heap object through its handle. -/
def Store.update (store : Store) (id : PathId) (f : BezierPath → BezierPath) :
    Store :=
  store.set id (f (store.get id))

/-- The binding's `BooleanOperationResult` record: an ordered collection of
handles to the newly allocated result paths. -/
structure BooleanOperationResult where
  paths : List PathId
deriving DecidableEq

/-- `boolean_operation` (src/src/lib.rs lines 192-217): clone both input
paths out of their instances, invoke the engine with the mapped fill rule
and operation, and either map the engine error through
`LineSweeperError.from` (the `?` operator) or wrap every output contour in
a newly allocated `BezierPath` handle, preserving engine order.  The heap
is returned alongside the outcome: on failure it is unchanged. -/
def boolean_operation (engine : Engine) (store : Store)
    (path_a path_b : PathId) (operation : BooleanOperation)
    (fill_rule : FillRule) :
    Store × Except LineSweeperError BooleanOperationResult :=
  let kurbo_a := (store.get path_a).to_kurbo_path
  let kurbo_b := (store.get path_b).to_kurbo_path
  match engine kurbo_a kurbo_b (LsFillRule.from fill_rule)
      (BinaryOp.from operation) with
  | .error err => (store, .error (LineSweeperError.from err))
  | .ok result =>
      let allocated := Store.alloc store (convert_contours_to_paths result)
      (allocated.1, .ok { paths := allocated.2 })

/-- One call of the exported builder surface, with its arguments. -/
inductive BuilderCall where
  | move_to (x y : F64)
  | line_to (x y : F64)
  | quad_to (cp_x cp_y x y : F64)
  | curve_to (cp1_x cp1_y cp2_x cp2_y x y : F64)
  | close_path
deriving DecidableEq, Repr

/-- Dispatch one builder call to the corresponding `BezierPath` method. -/
def BezierPath.applyCall (self : BezierPath) : BuilderCall → BezierPath
  | .move_to x y => self.move_to x y
  | .line_to x y => self.line_to x y
  | .quad_to cp_x cp_y x y => self.quad_to cp_x cp_y x y
  | .curve_to cp1_x cp1_y cp2_x cp2_y x y =>
      self.curve_to cp1_x cp1_y cp2_x cp2_y x y
  | .close_path => self.close_path

/-- Run a finite sequence of builder calls, first to last. -/
def BezierPath.applyCalls (self : BezierPath) (calls : List BuilderCall) :
    BezierPath :=
  calls.foldl BezierPath.applyCall self

/-- Stated from the spec: the `PathSegment` the spec says the i-th builder
call must read back as — same variant, coordinate fields equal to the
arguments passed. -/
def specSegmentOfCall : BuilderCall → PathSegment
  | .move_to x y => .MoveTo x y
  | .line_to x y => .LineTo x y
  | .quad_to cp_x cp_y x y => .QuadTo cp_x cp_y x y
  | .curve_to cp1_x cp1_y cp2_x cp2_y x y =>
      .CurveTo cp1_x cp1_y cp2_x cp2_y x y
  | .close_path => .ClosePath

/-- The coordinate arguments carried by one builder call, used to state the
non-finite-input claims. -/
def BuilderCall.coords : BuilderCall → List F64
  | .move_to x y => [x, y]
  | .line_to x y => [x, y]
  | .quad_to cp_x cp_y x y => [cp_x, cp_y, x, y]
  | .curve_to cp1_x cp1_y cp2_x cp2_y x y => [cp1_x, cp1_y, cp2_x, cp2_y, x, y]
  | .close_path => []

/-! ## Helper lemmas -/

/-- The segment built by `get_segments`'s match arm for one element. -/
def segOfEl : PathEl → PathSegment
  | .MoveTo p => .MoveTo p.x p.y
  | .LineTo p => .LineTo p.x p.y
  | .QuadTo p1 p2 => .QuadTo p1.x p1.y p2.x p2.y
  | .CurveTo p1 p2 p3 => .CurveTo p1.x p1.y p2.x p2.y p3.x p3.y
  | .ClosePath => .ClosePath

/-- The native element a builder call appends. -/
def elOfCall : BuilderCall → PathEl
  | .move_to x y => .MoveTo (Point.mk x y)
  | .line_to x y => .LineTo (Point.mk x y)
  | .quad_to cp_x cp_y x y => .QuadTo (Point.mk cp_x cp_y) (Point.mk x y)
  | .curve_to cp1_x cp1_y cp2_x cp2_y x y =>
      .CurveTo (Point.mk cp1_x cp1_y) (Point.mk cp2_x cp2_y) (Point.mk x y)
  | .close_path => .ClosePath

theorem get_segments_loop (l : List PathEl) (acc : List PathSegment) :
    l.foldl
      (fun segments el =>
        match el with
        | PathEl.MoveTo p => segments ++ [PathSegment.MoveTo p.x p.y]
        | PathEl.LineTo p => segments ++ [PathSegment.LineTo p.x p.y]
        | PathEl.QuadTo p1 p2 =>
            segments ++ [PathSegment.QuadTo p1.x p1.y p2.x p2.y]
        | PathEl.CurveTo p1 p2 p3 =>
            segments ++ [PathSegment.CurveTo p1.x p1.y p2.x p2.y p3.x p3.y]
        | PathEl.ClosePath => segments ++ [PathSegment.ClosePath])
      acc = acc ++ l.map segOfEl := by
  induction l generalizing acc with
  | nil => simp
  | cons el rest ih => cases el <;> simp [ih, segOfEl]

/-- The read-out loop of `get_segments` is the elementwise translation of
the guarded sequence. -/
theorem get_segments_eq_map (self : BezierPath) :
    self.get_segments = self.path.map segOfEl := by
  simpa [BezierPath.get_segments, BezPath.elements] using
    get_segments_loop self.path []

/-- The element-to-segment translation is injective: distinct native
elements read back as distinct segments. -/
theorem segOfEl_injective {e1 e2 : PathEl} (h : segOfEl e1 = segOfEl e2) :
    e1 = e2 := by
  cases e1 <;> cases e2 <;> simp_all [segOfEl, Point.ext_iff]

/-- Equal segment read-outs force equal guarded sequences. -/
theorem path_eq_of_get_segments_eq {p q : BezierPath}
    (h : p.get_segments = q.get_segments) : p.path = q.path := by
  rw [get_segments_eq_map, get_segments_eq_map] at h
  exact List.map_injective_iff.mpr (fun _ _ => segOfEl_injective) h

theorem applyCall_path (p : BezierPath) (c : BuilderCall) :
    (p.applyCall c).path = p.path ++ [elOfCall c] := by
  cases c <;> rfl

theorem applyCalls_path (p : BezierPath) (calls : List BuilderCall) :
    (p.applyCalls calls).path = p.path ++ calls.map elOfCall := by
  induction calls generalizing p with
  | nil => simp [BezierPath.applyCalls]
  | cons c rest ih =>
      have : (p.applyCalls (c :: rest)) = (p.applyCall c).applyCalls rest := rfl
      rw [this, ih, applyCall_path]
      simp

theorem segOfEl_elOfCall (c : BuilderCall) :
    segOfEl (elOfCall c) = specSegmentOfCall c := by
  cases c <;> rfl

/-- Reading back the freshly allocated handles returns exactly the
allocated objects, in order. -/
theorem alloc_get_map (store : Store) (objs : List BezierPath) :
    (store.alloc objs).2.map (fun id => (store.alloc objs).1.get id) = objs := by
  apply List.ext_getElem
  · simp [Store.alloc]
  · intro i h1 h2
    simp only [Store.alloc, Store.get, List.getElem_map, List.getElem_range,
      List.getD_eq_getElem?_getD]
    rw [List.getElem?_append_right (Nat.le_add_right store.length i)]
    have hi : store.length + i - store.length = i := by omega
    rw [hi, List.getElem?_eq_getElem h2]
    rfl

/-- Allocation preserves every existing entry. -/
theorem alloc_get_old (store : Store) (objs : List BezierPath) (id : PathId)
    (h : id < store.length) :
    (store.alloc objs).1.get id = store.get id := by
  simp only [Store.alloc, Store.get, List.getD_eq_getElem?_getD]
  rw [List.getElem?_append_left h]

/-- The freshly allocated handles all sit past the old heap. -/
theorem alloc_ids_fresh (store : Store) (objs : List BezierPath) (id : PathId)
    (h : id ∈ (store.alloc objs).2) : store.length ≤ id := by
  simp only [Store.alloc, List.mem_map, List.mem_range] at h
  obtain ⟨i, _, rfl⟩ := h
  omega

/-- The freshly allocated handles are pairwise distinct. -/
theorem alloc_ids_nodup (store : Store) (objs : List BezierPath) :
    (store.alloc objs).2.Nodup := by
  simp only [Store.alloc]
  apply List.Nodup.map
  · intro a b hab
    exact Nat.add_left_cancel hab
  · exact List.nodup_range _

/-- A handle at or past the allocation frontier differs from any live
handle. -/
theorem fresh_ne {bound a b : Nat} (ha : a < bound) (hb : bound ≤ b) :
    b ≠ a := by
  omega

/-- Updating one entry leaves every other entry unchanged. -/
theorem update_get_ne (store : Store) (id id' : PathId)
    (f : BezierPath → BezierPath) (h : id' ≠ id) :
    (store.update id f).get id' = store.get id' := by
  simp only [Store.update, Store.get, List.getD_eq_getElem?_getD]
  rw [List.getElem?_set_ne (Ne.symm h)]

/-! ## Claims -/

/-- C1: for every finite sequence of builder calls applied to a newly
constructed `Path`, `get_segments()` returns one `PathSegment` per call, in
original call order, whose i-th element is the variant corresponding to the
i-th call with coordinate fields exactly the arguments passed. -/
theorem c1_builder_round_trip (calls : List BuilderCall) :
    (BezierPath.new.applyCalls calls).get_segments =
      calls.map specSegmentOfCall := by
  rw [get_segments_eq_map, applyCalls_path]
  simp [BezierPath.new, BezPath.new, List.map_map, Function.comp,
    segOfEl_elOfCall]

/-- C2: every builder operation succeeds for all double-precision arguments
in every path state and appends exactly its element — no geometric
validation; in particular a `line_to` before any `move_to`, two consecutive
`move_to`s, and a `close_path` on an empty path are accepted. -/
theorem c2_builders_total (p : BezierPath) :
    (∀ x y, (p.move_to x y).path = p.path ++ [PathEl.MoveTo (Point.mk x y)]) ∧
    (∀ x y, (p.line_to x y).path = p.path ++ [PathEl.LineTo (Point.mk x y)]) ∧
    (∀ cp_x cp_y x y, (p.quad_to cp_x cp_y x y).path =
      p.path ++ [PathEl.QuadTo (Point.mk cp_x cp_y) (Point.mk x y)]) ∧
    (∀ cp1_x cp1_y cp2_x cp2_y x y,
      (p.curve_to cp1_x cp1_y cp2_x cp2_y x y).path =
        p.path ++ [PathEl.CurveTo (Point.mk cp1_x cp1_y)
          (Point.mk cp2_x cp2_y) (Point.mk x y)]) ∧
    p.close_path.path = p.path ++ [PathEl.ClosePath] ∧
    (∀ x y, (BezierPath.new.line_to x y).get_segments =
      [PathSegment.LineTo x y]) ∧
    (∀ x y u v, ((BezierPath.new.move_to x y).move_to u v).get_segments =
      [PathSegment.MoveTo x y, PathSegment.MoveTo u v]) ∧
    BezierPath.new.close_path.get_segments = [PathSegment.ClosePath] := by
  refine ⟨fun _ _ => rfl, fun _ _ => rfl, fun _ _ _ _ => rfl,
    fun _ _ _ _ _ _ => rfl, rfl, fun _ _ => rfl, fun _ _ _ _ => rfl, rfl⟩

/-- The eight `BooleanOperation` × `FillRule` pairs. -/
def allOpRulePairs : List (BooleanOperation × FillRule) :=
  [(.Union, .EvenOdd), (.Union, .NonZero),
   (.Intersection, .EvenOdd), (.Intersection, .NonZero),
   (.Difference, .EvenOdd), (.Difference, .NonZero),
   (.Xor, .EvenOdd), (.Xor, .NonZero)]

/-- C5: the two enum mappings are total, defined by explicit per-variant
cases (Union↦Union, Intersection↦Intersection, Difference↦Difference,
Xor↦Xor, EvenOdd↦EvenOdd, NonZero↦NonZero), and every
`BooleanOperation` × `FillRule` pair maps to a distinct, defined pair of
engine-native values. -/
theorem c5_enum_mappings :
    BinaryOp.from BooleanOperation.Union = BinaryOp.Union ∧
    BinaryOp.from BooleanOperation.Intersection = BinaryOp.Intersection ∧
    BinaryOp.from BooleanOperation.Difference = BinaryOp.Difference ∧
    BinaryOp.from BooleanOperation.Xor = BinaryOp.Xor ∧
    LsFillRule.from FillRule.EvenOdd = LsFillRule.EvenOdd ∧
    LsFillRule.from FillRule.NonZero = LsFillRule.NonZero ∧
    (∀ pair : BooleanOperation × FillRule, pair ∈ allOpRulePairs) ∧
    (allOpRulePairs.map
      (fun pair => (BinaryOp.from pair.1, LsFillRule.from pair.2))).Nodup := by
  refine ⟨rfl, rfl, rfl, rfl, rfl, rfl, ?_, by decide⟩
  rintro ⟨op, rule⟩
  cases op <;> cases rule <;> simp [allOpRulePairs]

/-- C7: calling `get_segments()` twice on the same `Path` with no
intervening mutation yields identical sequences; the read-out is a function
of the guarded element sequence alone. -/
theorem c7_idempotent_read :
    (∀ p : BezierPath, p.get_segments = p.get_segments) ∧
    (∀ p q : BezierPath, p.path = q.path → p.get_segments = q.get_segments) := by
  refine ⟨fun _ => rfl, fun p q h => ?_⟩
  rw [get_segments_eq_map, get_segments_eq_map, h]

/-- Witness for C7: two separately built instances holding the same
sequence read back identically. -/
theorem c7_idempotent_read_witness :
    (BezierPath.new.move_to (F64.mk 0) (F64.mk 0)).get_segments =
      (BezierPath.from_kurbo_path
        [PathEl.MoveTo (Point.mk (F64.mk 0) (F64.mk 0))]).get_segments :=
  c7_idempotent_read.2 _ _ rfl

/-- C9: builder operations accept non-finite coordinates without error and
store them verbatim — appending an element whose coordinates include an
infinity or a NaN succeeds, and a subsequent `get_segments()` returns that
element with bitwise-identical coordinate values. -/
theorem c9_non_finite_stored_verbatim (p : BezierPath) (c : BuilderCall)
    (_h : ∃ v ∈ c.coords, v.isNaN = true ∨ v.isInfinite = true) :
    (p.applyCall c).get_segments = p.get_segments ++ [specSegmentOfCall c] := by
  rw [get_segments_eq_map, get_segments_eq_map, applyCall_path]
  simp [segOfEl_elOfCall]

/-- Witness for C9: a `line_to` whose x argument carries the quiet-NaN bit
pattern 0x7FF8000000000000. -/
theorem c9_non_finite_stored_verbatim_witness :
    (F64.mk 9221120237041090560).isNaN = true ∧
    (BezierPath.new.applyCall (BuilderCall.line_to
        (F64.mk 9221120237041090560) (F64.mk 0))).get_segments =
      BezierPath.new.get_segments ++
        [PathSegment.LineTo (F64.mk 9221120237041090560) (F64.mk 0)] :=
  ⟨by decide,
   c9_non_finite_stored_verbatim BezierPath.new
    (BuilderCall.line_to (F64.mk 9221120237041090560) (F64.mk 0))
    ⟨F64.mk 9221120237041090560, by decide, Or.inl (by decide)⟩⟩

/-- C3: the error mapping at the `boolean_operation` boundary is total and
exhaustive — the call fails exactly when the engine fails, `Infinity` maps
to `InfiniteInput`, `NaN` to `NaNInput`, and every other engine error to
`InternalError` carrying its debug description; no error is swallowed. -/
theorem c3_error_mapping (engine : Engine) (store : Store)
    (path_a path_b : PathId) (operation : BooleanOperation)
    (fill_rule : FillRule) :
    (∀ err, engine (store.get path_a).to_kurbo_path
        (store.get path_b).to_kurbo_path (LsFillRule.from fill_rule)
        (BinaryOp.from operation) = .error err →
      (boolean_operation engine store path_a path_b operation fill_rule).2 =
        .error (LineSweeperError.from err)) ∧
    (∀ result, engine (store.get path_a).to_kurbo_path
        (store.get path_b).to_kurbo_path (LsFillRule.from fill_rule)
        (BinaryOp.from operation) = .ok result →
      ∃ res, (boolean_operation engine store path_a path_b operation
        fill_rule).2 = .ok res) ∧
    LineSweeperError.from LsError.Infinity = LineSweeperError.InfiniteInput ∧
    LineSweeperError.from LsError.NaN = LineSweeperError.NaNInput ∧
    (∀ s, LineSweeperError.from (LsError.Other s) =
      LineSweeperError.InternalError (LsError.Other s).debugFmt) := by
  refine ⟨fun err h => ?_, fun result h => ?_, rfl, rfl, fun s => rfl⟩
  · simp [boolean_operation, h]
  · exact ⟨⟨(store.alloc (convert_contours_to_paths result)).2⟩,
      by simp [boolean_operation, h]⟩

/-- Witness for C3: an engine failing with `Infinity` surfaces as exactly
`InfiniteInput`. -/
theorem c3_error_mapping_witness :
    (boolean_operation (fun _ _ _ _ => Except.error LsError.Infinity) []
      0 0 BooleanOperation.Union FillRule.EvenOdd).2 =
      Except.error LineSweeperError.InfiniteInput :=
  (c3_error_mapping (fun _ _ _ _ => Except.error LsError.Infinity) [] 0 0
    BooleanOperation.Union FillRule.EvenOdd).1 LsError.Infinity rfl

/-- The heap returned by `boolean_operation` agrees with the input heap on
every live handle (success or failure alike). -/
theorem boolean_operation_store_get (engine : Engine) (store : Store)
    (path_a path_b : PathId) (operation : BooleanOperation)
    (fill_rule : FillRule) (id : PathId) (h : id < store.length) :
    (boolean_operation engine store path_a path_b operation fill_rule).1.get
      id = store.get id := by
  rcases hE : engine (store.get path_a).to_kurbo_path
      (store.get path_b).to_kurbo_path (LsFillRule.from fill_rule)
      (BinaryOp.from operation) with err | result
  · simp [boolean_operation, hE]
  · simp only [boolean_operation, hE]
    exact alloc_get_old _ _ _ h

/-- C4: `boolean_operation` does not mutate `path_a` or `path_b` — whether
the call succeeded or failed, each input handle reads back exactly the
segment sequence it held before the call. -/
theorem c4_inputs_unchanged (engine : Engine) (store : Store)
    (path_a path_b : PathId) (operation : BooleanOperation)
    (fill_rule : FillRule) (ha : path_a < store.length)
    (hb : path_b < store.length) :
    ((boolean_operation engine store path_a path_b operation
        fill_rule).1.get path_a).get_segments =
      (store.get path_a).get_segments ∧
    ((boolean_operation engine store path_a path_b operation
        fill_rule).1.get path_b).get_segments =
      (store.get path_b).get_segments :=
  ⟨by rw [boolean_operation_store_get _ _ _ _ _ _ _ ha],
   by rw [boolean_operation_store_get _ _ _ _ _ _ _ hb]⟩

/-- Witness for C4 at a concrete engine, heap, and call. -/
theorem c4_inputs_unchanged_witness :
    0 < ([BezierPath.new] : Store).length ∧
    ((Store.get (boolean_operation (fun _ _ _ _ => Except.ok ([] : Contours))
        [BezierPath.new] 0 0 BooleanOperation.Union
        FillRule.EvenOdd).1 0).get_segments =
      (Store.get [BezierPath.new] 0).get_segments ∧
     (Store.get (boolean_operation (fun _ _ _ _ => Except.ok ([] : Contours))
        [BezierPath.new] 0 0 BooleanOperation.Union
        FillRule.EvenOdd).1 0).get_segments =
      (Store.get [BezierPath.new] 0).get_segments) :=
  ⟨by decide,
   c4_inputs_unchanged (fun _ _ _ _ => Except.ok ([] : Contours))
    [BezierPath.new] 0 0 BooleanOperation.Union FillRule.EvenOdd
    (by decide) (by decide)⟩

/-- C6: on success the result collection holds exactly one new path per
engine contour, in engine-reported order, and each result path's element
sequence is exactly the native path carried by its contour. -/
theorem c6_contours_rewrapped (engine : Engine) (store : Store)
    (path_a path_b : PathId) (operation : BooleanOperation)
    (fill_rule : FillRule) (contours : Contours)
    (h : engine (store.get path_a).to_kurbo_path
      (store.get path_b).to_kurbo_path (LsFillRule.from fill_rule)
      (BinaryOp.from operation) = .ok contours) :
    ∃ res, (boolean_operation engine store path_a path_b operation
        fill_rule).2 = .ok res ∧
      res.paths.length = contours.contours.length ∧
      res.paths.map (fun id =>
          ((boolean_operation engine store path_a path_b operation
            fill_rule).1.get id).path) =
        contours.contours.map (fun contour => contour.path) := by
  have hb : boolean_operation engine store path_a path_b operation fill_rule =
      ((store.alloc (convert_contours_to_paths contours)).1,
        .ok ⟨(store.alloc (convert_contours_to_paths contours)).2⟩) := by
    simp [boolean_operation, h]
  refine ⟨⟨(store.alloc (convert_contours_to_paths contours)).2⟩, ?_, ?_, ?_⟩
  · rw [hb]
  · simp [Store.alloc, convert_contours_to_paths, Contours.contours]
  · rw [hb]
    have hmap := congrArg (List.map (fun bp : BezierPath => bp.path))
      (alloc_get_map store (convert_contours_to_paths contours))
    rw [List.map_map] at hmap
    simpa [convert_contours_to_paths, Contours.contours,
      BezierPath.from_kurbo_path, Function.comp, List.map_map] using hmap

/-- Witness for C6: an engine reporting one closed contour yields one
result path carrying exactly that contour's native path. -/
theorem c6_contours_rewrapped_witness :
    ∃ res, (boolean_operation
        (fun _ _ _ _ => Except.ok ([Contour.mk [PathEl.ClosePath]] : Contours))
        [] 0 0 BooleanOperation.Union FillRule.EvenOdd).2 = .ok res ∧
      res.paths.length =
        (Contours.contours [Contour.mk [PathEl.ClosePath]]).length ∧
      res.paths.map (fun id =>
          (Store.get (boolean_operation
            (fun _ _ _ _ =>
              Except.ok ([Contour.mk [PathEl.ClosePath]] : Contours))
            [] 0 0 BooleanOperation.Union FillRule.EvenOdd).1 id).path) =
        (Contours.contours [Contour.mk [PathEl.ClosePath]]).map
          (fun contour => contour.path) :=
  c6_contours_rewrapped
    (fun _ _ _ _ => Except.ok ([Contour.mk [PathEl.ClosePath]] : Contours))
    [] 0 0 BooleanOperation.Union FillRule.EvenOdd
    [Contour.mk [PathEl.ClosePath]] rfl

/-- C8: result paths are freshly allocated instances: the returned handles
are pairwise distinct and distinct from both input handles, so a builder
call applied to any result path leaves the element sequences of the two
input paths and of every other result path unchanged. -/
theorem c8_result_isolation (engine : Engine) (store : Store)
    (path_a path_b : PathId) (operation : BooleanOperation)
    (fill_rule : FillRule) (res : BooleanOperationResult)
    (ha : path_a < store.length) (hb : path_b < store.length)
    (hres : (boolean_operation engine store path_a path_b operation
      fill_rule).2 = .ok res) :
    res.paths.Nodup ∧
    (∀ id ∈ res.paths, id ≠ path_a ∧ id ≠ path_b) ∧
    (∀ id ∈ res.paths, ∀ c : BuilderCall,
      Store.get (Store.update (boolean_operation engine store path_a path_b
          operation fill_rule).1 id (fun p => p.applyCall c)) path_a =
        Store.get (boolean_operation engine store path_a path_b operation
          fill_rule).1 path_a ∧
      Store.get (Store.update (boolean_operation engine store path_a path_b
          operation fill_rule).1 id (fun p => p.applyCall c)) path_b =
        Store.get (boolean_operation engine store path_a path_b operation
          fill_rule).1 path_b ∧
      ∀ id' ∈ res.paths, id' ≠ id →
        Store.get (Store.update (boolean_operation engine store path_a path_b
            operation fill_rule).1 id (fun p => p.applyCall c)) id' =
          Store.get (boolean_operation engine store path_a path_b operation
            fill_rule).1 id') := by
  rcases hE : engine (store.get path_a).to_kurbo_path
      (store.get path_b).to_kurbo_path (LsFillRule.from fill_rule)
      (BinaryOp.from operation) with err | contours
  · simp [boolean_operation, hE] at hres
  · have hstep : boolean_operation engine store path_a path_b operation
        fill_rule =
        ((store.alloc (convert_contours_to_paths contours)).1,
          .ok ⟨(store.alloc (convert_contours_to_paths contours)).2⟩) := by
      simp [boolean_operation, hE]
    rw [hstep] at hres
    have hres' :
        (⟨(store.alloc (convert_contours_to_paths contours)).2⟩ :
          BooleanOperationResult) = res := Except.ok.inj hres
    subst hres'
    refine ⟨alloc_ids_nodup _ _, ?_, ?_⟩
    · intro id hid
      have hfresh := alloc_ids_fresh store (convert_contours_to_paths contours)
        id hid
      exact ⟨fresh_ne ha hfresh, fresh_ne hb hfresh⟩
    · intro id hid c
      have hfresh := alloc_ids_fresh store (convert_contours_to_paths contours)
        id hid
      exact ⟨update_get_ne _ _ _ _ (Ne.symm (fresh_ne ha hfresh)),
        update_get_ne _ _ _ _ (Ne.symm (fresh_ne hb hfresh)),
        fun id' hid' hne => update_get_ne _ _ _ _ hne⟩

/-- Witness for C8: an engine reporting two contours over a one-path heap
allocates the fresh handles 1 and 2. -/
theorem c8_result_isolation_witness :
    (BooleanOperationResult.mk [1, 2]).paths.Nodup ∧
    (∀ id ∈ (BooleanOperationResult.mk [1, 2]).paths, id ≠ 0 ∧ id ≠ 0) ∧
    (∀ id ∈ (BooleanOperationResult.mk [1, 2]).paths, ∀ c : BuilderCall,
      Store.get (Store.update (boolean_operation
          (fun _ _ _ _ =>
            Except.ok ([Contour.mk [], Contour.mk []] : Contours))
          [BezierPath.new] 0 0 BooleanOperation.Union FillRule.EvenOdd).1 id
          (fun p => p.applyCall c)) 0 =
        Store.get (boolean_operation
          (fun _ _ _ _ =>
            Except.ok ([Contour.mk [], Contour.mk []] : Contours))
          [BezierPath.new] 0 0 BooleanOperation.Union FillRule.EvenOdd).1 0 ∧
      Store.get (Store.update (boolean_operation
          (fun _ _ _ _ =>
            Except.ok ([Contour.mk [], Contour.mk []] : Contours))
          [BezierPath.new] 0 0 BooleanOperation.Union FillRule.EvenOdd).1 id
          (fun p => p.applyCall c)) 0 =
        Store.get (boolean_operation
          (fun _ _ _ _ =>
            Except.ok ([Contour.mk [], Contour.mk []] : Contours))
          [BezierPath.new] 0 0 BooleanOperation.Union FillRule.EvenOdd).1 0 ∧
      ∀ id' ∈ (BooleanOperationResult.mk [1, 2]).paths, id' ≠ id →
        Store.get (Store.update (boolean_operation
            (fun _ _ _ _ =>
              Except.ok ([Contour.mk [], Contour.mk []] : Contours))
            [BezierPath.new] 0 0 BooleanOperation.Union FillRule.EvenOdd).1 id
            (fun p => p.applyCall c)) id' =
          Store.get (boolean_operation
            (fun _ _ _ _ =>
              Except.ok ([Contour.mk [], Contour.mk []] : Contours))
            [BezierPath.new] 0 0 BooleanOperation.Union FillRule.EvenOdd).1
            id') :=
  c8_result_isolation
    (fun _ _ _ _ => Except.ok ([Contour.mk [], Contour.mk []] : Contours))
    [BezierPath.new] 0 0 BooleanOperation.Union FillRule.EvenOdd
    (BooleanOperationResult.mk [1, 2]) (by decide) (by decide) rfl

/-- The outcome of one `boolean_operation` call as its caller observes it:
the typed error, or else the result paths' segment sequences read back
through the returned handles. -/
def observedOutcome
    (call : Store × Except LineSweeperError BooleanOperationResult) :
    Except LineSweeperError (List (List PathSegment)) :=
  call.2.map
    (fun res => res.paths.map (fun id => (Store.get call.1 id).get_segments))

/-- C10: with the engine held fixed, two calls whose input paths hold equal
segment sequences, with equal operation and fill rule, produce equal
observable outcomes — the outcome depends only on the snapshots taken at
call time, not on path identity. -/
theorem c10_deterministic (engine : Engine) (s1 s2 : Store)
    (a1 b1 a2 b2 : PathId) (operation : BooleanOperation)
    (fill_rule : FillRule)
    (ha : (Store.get s1 a1).get_segments = (Store.get s2 a2).get_segments)
    (hb : (Store.get s1 b1).get_segments = (Store.get s2 b2).get_segments) :
    observedOutcome (boolean_operation engine s1 a1 b1 operation fill_rule) =
      observedOutcome (boolean_operation engine s2 a2 b2 operation
        fill_rule) := by
  have hpa : (Store.get s1 a1).path = (Store.get s2 a2).path :=
    path_eq_of_get_segments_eq ha
  have hpb : (Store.get s1 b1).path = (Store.get s2 b2).path :=
    path_eq_of_get_segments_eq hb
  have hk : engine (Store.get s1 a1).to_kurbo_path
      (Store.get s1 b1).to_kurbo_path (LsFillRule.from fill_rule)
      (BinaryOp.from operation) =
      engine (Store.get s2 a2).to_kurbo_path (Store.get s2 b2).to_kurbo_path
        (LsFillRule.from fill_rule) (BinaryOp.from operation) := by
    simp only [BezierPath.to_kurbo_path]
    rw [hpa, hpb]
  rcases hE : engine (Store.get s2 a2).to_kurbo_path
      (Store.get s2 b2).to_kurbo_path (LsFillRule.from fill_rule)
      (BinaryOp.from operation) with err | contours
  · have hE1 := hk.trans hE
    simp [boolean_operation, observedOutcome, hE, hE1, Except.map]
  · have hE1 := hk.trans hE
    have h1 := congrArg (List.map BezierPath.get_segments)
      (alloc_get_map s1 (convert_contours_to_paths contours))
    have h2 := congrArg (List.map BezierPath.get_segments)
      (alloc_get_map s2 (convert_contours_to_paths contours))
    rw [List.map_map] at h1 h2
    simp only [boolean_operation, observedOutcome, hE, hE1, Except.map]
    exact congrArg Except.ok (h1.trans h2.symm)

/-- Witness for C10: two distinct heap layouts holding equal sequences at
the handles used. -/
theorem c10_deterministic_witness :
    observedOutcome (boolean_operation
        (fun _ _ _ _ => Except.ok ([] : Contours)) [BezierPath.new] 0 0
        BooleanOperation.Union FillRule.EvenOdd) =
      observedOutcome (boolean_operation
        (fun _ _ _ _ => Except.ok ([] : Contours))
        [BezierPath.from_kurbo_path []] 0 0 BooleanOperation.Union
        FillRule.EvenOdd) :=
  c10_deterministic (fun _ _ _ _ => Except.ok ([] : Contours))
    [BezierPath.new] [BezierPath.from_kurbo_path []] 0 0 0 0
    BooleanOperation.Union FillRule.EvenOdd rfl rfl
